import Mathlib

/-!
Shallow embedding of `src/pool_light_switch.ino`, the Pentair 5G pool light
controller sketch.  Pure C helpers become Lean functions.  The sketch's
global mutable variables become an explicit record `DS` threaded through
each operation.  Hardware and network side effects (relay pin writes,
blocking delays, MQTT status publishes) are recorded in an event list
returned next to the new state.  External inputs (the `millis()` clock,
the switch pin reading, WiFi connectivity, RSSI, and the decoded fields of
an inbound MQTT message) are parameters of the corresponding operations.
-/

namespace PoolLight

/-- Timing constants from the top of the sketch (milliseconds). -/
def timeBetweenMessages : Int := 1000 * 60

/-- Interval between polls of the local switch (ms). -/
def timeBetweenSwitchCheck : Int := 200

/-- Interval between checks of the programming state (ms). -/
def timeBetweenProgCheck : Int := 200

/-- The `colors_string` table from the sketch: index 0 is the invalid sentinel,
indices 1..14 are the 14 programmable scenes/colors (pulse count = index). -/
def colors_string : List String :=
  ["Invalid_Color", "Peruvian_Paradise", "Super_Nova",
   "Northern_Lights", "Tidal_Wave", "Patriot_Blue", "Desert_Skies", "Nova",
   "Blue", "Green", "Red", "White", "Pink", "Color_Lock", "Return"]

/-- C `strncmp` on NUL-free character lists (a C string cannot contain an
embedded NUL; the end of the list plays the role of the terminator).
Returns the difference of the first mismatching characters, or 0 when the
first `n` characters agree or both strings end before `n` characters. -/
def strncmp : List Char → List Char → Nat → Int
  | _, _, 0 => 0
  | [], [], _ + 1 => 0
  | [], d :: _, _ + 1 => 0 - (d.toNat : Int)
  | c :: _, [], _ + 1 => (c.toNat : Int)
  | c :: a, d :: b, n + 1 =>
      if c = d then strncmp a b n else (c.toNat : Int) - (d.toNat : Int)

/-- The scan loop inside `findColor`: try each table entry in order,
comparing at most `maxColorNameSize = 15` characters, returning the index
of the first match or `-1`. -/
def findColorAux (str : List Char) : List String → Int → Int
  | [], _ => -1
  | t :: ts, i =>
      if strncmp str t.data 15 = 0 then i else findColorAux str ts (i + 1)

/-- Model of `findColor` from the sketch: index of `str` in `colors_string` under a
15-character-bounded comparison, or `-1` when no entry matches. -/
def findColor (str : String) : Int :=
  findColorAux str.data colors_string 0

/-- Model of `getQuality` from the sketch, with the WiFi connection state and the
raw RSSI reading (dBm) as external inputs. -/
def getQuality (connected : Bool) (dBm : Int) : Int :=
  if connected = false then -1
  else if dBm ≤ -100 then 0
  else if dBm ≥ -50 then 100
  else 2 * (dBm + 100)

/-- Content of an outbound status message that is derived from the device
state: `power`, `programming` and `color` of `publishStatus`.  The
`micros`, `client` and `RSSI` fields are supplied by the environment
(clock, MAC address, radio) and carry no device state, so they are not
modelled here. -/
structure Status where
  power : Bool
  programming : Bool
  color : String
deriving DecidableEq

/-- Observable side effects of the firmware: a relay pin write
(`low = true` is the physical LOW level, which energises the relay, i.e.
light on), a blocking `delay` in milliseconds, or a status publish. -/
inductive Ev where
  | pinWrite (low : Bool)
  | delayMs (ms : Nat)
  | publish (st : Status)
deriving DecidableEq

/-- Is the event a status publish? -/
def isPublish : Ev → Bool
  | Ev.publish _ => true
  | _ => false

/-- Is the event a relay pin write? -/
def isPinWrite : Ev → Bool
  | Ev.pinWrite _ => true
  | _ => false

/-- Is the event a publish whose payload says programming is on? -/
def pubDuringProg : Ev → Bool
  | Ev.publish st => st.programming
  | _ => false

/-- The sketch's global mutable state: `relayOn`, `switchState`,
`programming`, `progVal`, `currColor`, the timer variables, and the last
level written to the relay pin (`pinLow = true` means LOW = light on). -/
@[ext]
structure DS where
  relayOn : Bool
  switchState : Bool
  programming : Bool
  progVal : Int
  currColor : Int
  pinLow : Bool
  lastMsg : Int
  lastProgCheck : Int
  lastSwitchCheck : Int
deriving DecidableEq

/-- State after `setup()`: relay off (pin HIGH), `currColor = -1`
(unknown), all timers zero; `sw` is the boot-time switch reading. -/
def initDS (sw : Bool) : DS :=
  { relayOn := false, switchState := sw, programming := false, progVal := 0,
    currColor := -1, pinLow := false, lastMsg := 0, lastProgCheck := 0,
    lastSwitchCheck := 0 }

/-- Device-state-derived part of the payload built by `publishStatus`. -/
def mkStatus (s : DS) : Status :=
  { power := s.relayOn, programming := s.programming,
    color :=
      if s.currColor < 1 then "Unknown"
      else colors_string.getD s.currColor.toNat "Unknown" }

/-- Model of `setRelay` from the sketch: when not programming, drive the pin per
`relayOn` and publish a status; when programming, do nothing (logged). -/
def setRelay (s : DS) : DS × List Ev :=
  if s.programming = true then (s, [])
  else if s.relayOn = true then
    let s1 := { s with pinLow := true }
    (s1, [Ev.pinWrite true, Ev.publish (mkStatus s1)])
  else
    let s1 := { s with pinLow := false }
    (s1, [Ev.pinWrite false, Ev.publish (mkStatus s1)])

/-- Model of `togglePower` from the sketch: always record the new switch reading;
when not programming, flip `relayOn` and apply it via `setRelay`. -/
def togglePower (currSwitchState : Bool) (s : DS) : DS × List Ev :=
  let s1 := { s with switchState := currSwitchState }
  if s1.programming = true then (s1, [])
  else setRelay { s1 with relayOn := !s1.relayOn }

/-- Model of `toggleRelay` from the sketch (one programming cycle): pin HIGH (off),
delay `delVal` ms, pin LOW (on). -/
def toggleRelay (delVal : Nat) (s : DS) : DS × List Ev :=
  ({ s with pinLow := true },
   [Ev.pinWrite false, Ev.delayMs delVal, Ev.pinWrite true])

/-- Model of `setProgramming` from the sketch.  Third component is its `bool`
return value (whether a change was made); all callers in the sketch
ignore it. -/
def setProgramming (state : Bool) (s : DS) : DS × List Ev × Bool :=
  if s.programming ≠ state then
    if state = true then
      let r := setRelay { s with relayOn := true }
      let s2 := { r.1 with programming := state }
      (s2, (r.2 ++ [Ev.delayMs 500]) ++ [Ev.publish (mkStatus s2)], true)
    else
      let s2 := { s with programming := state }
      (s2, [Ev.publish (mkStatus s2)], true)
  else (s, [], false)

/-- Decoded fields of an inbound MQTT message as `callback` reads them:
`doc\x7b"power"\x7d`, `doc\x7b"programming"\x7d[0]` and
`doc\x7b"programming"\x7d[1]`, each possibly absent. -/
structure Msg where
  power : Option String
  prog0 : Option String
  prog1 : Option String

/-- The `power` section of `callback` (lines 140-152): `"on"` and `"off"`
are matched by `strncmp` with lengths 2 and 3, the flag `relayOn` is
assigned before `setRelay` runs (and performs its own programming check);
anything else is ignored. -/
def powerCmd (pow : Option String) (s : DS) : DS × List Ev :=
  match pow with
  | some p =>
      if strncmp p.data "on".data 2 = 0 then
        setRelay { s with relayOn := true }
      else if strncmp p.data "off".data 3 = 0 then
        setRelay { s with relayOn := false }
      else (s, [])
  | none => (s, [])

/-- The `programming` section of `callback` (lines 155-177): on a
`prog on` command `progVal` is assigned the `findColor` result before the
validity check, and `setProgramming(true)` runs only for a result above 0;
`prog off` always calls `setProgramming(false)`. -/
def progCmd (prog0 prog1 : Option String) (s : DS) : DS × List Ev :=
  match prog0, prog1 with
  | some pj, some cj =>
      if strncmp pj.data "on".data 2 = 0 then
        let pv := findColor cj
        let s2 := { s with progVal := pv }
        if pv > 0 then
          let r := setProgramming true s2
          (r.1, r.2.1)
        else (s2, [])
      else if strncmp pj.data "off".data 3 = 0 then
        let r := setProgramming false s
        (r.1, r.2.1)
      else (s, [])
  | _, _ => (s, [])

/-- Model of `callback` from the sketch, after successful JSON deserialization
(on a deserialization error the sketch only logs, changing nothing).
First the `power` field is handled, then the `programming` pair. -/
def callback (m : Msg) (s : DS) : DS × List Ev :=
  let rp := powerCmd m.power s
  let rq := progCmd m.prog0 m.prog1 rp.1
  (rq.1, rp.2 ++ rq.2)

/-- The `for` loop in the programming block of `loop`: `n` iterations of
`toggleRelay(250); delay(250);`. -/
def pulseTrain : Nat → DS → DS × List Ev
  | 0, s => (s, [])
  | n + 1, s =>
      let r1 := toggleRelay 250 s
      let r2 := pulseTrain n r1.1
      (r2.1, (r1.2 ++ [Ev.delayMs 250]) ++ r2.2)

/-- The programming block of `loop` (lines 336-352): when programming and
its timer has elapsed, run the whole pulse train monolithically, then set
`currColor := progVal`, clear `progVal`, clear `programming`, publish. -/
def progStep (now : Int) (s : DS) : DS × List Ev :=
  if s.programming = true ∧
      (s.lastProgCheck = 0 ∨ now - s.lastProgCheck > timeBetweenProgCheck) then
    let r := pulseTrain s.progVal.toNat { s with lastProgCheck := now }
    let s2 := { r.1 with
      currColor := r.1.progVal, progVal := 0, programming := false }
    (s2, r.2 ++ [Ev.publish (mkStatus s2)])
  else (s, [])

/-- The periodic status block of `loop` (lines 330-333): publish on start
and then once per minute, but only when not programming. -/
def periodicStep (now : Int) (s : DS) : DS × List Ev :=
  if s.programming = false ∧
      (s.lastMsg = 0 ∨ now - s.lastMsg > timeBetweenMessages) then
    let s1 := { s with lastMsg := now }
    (s1, [Ev.publish (mkStatus s1)])
  else (s, [])

/-- The switch-poll block of `loop` (lines 355-360): when not programming
and the poll timer elapsed, read the switch and call `togglePower` on a
changed reading. -/
def switchStep (now : Int) (switchReading : Bool) (s : DS) : DS × List Ev :=
  if s.programming = false ∧
      (s.lastSwitchCheck = 0 ∨
        now - s.lastSwitchCheck > timeBetweenSwitchCheck) then
    let s3 := { s with lastSwitchCheck := now }
    if switchReading ≠ s3.switchState then togglePower switchReading s3
    else (s3, [])
  else (s, [])

/-- The timer-gated tail of `loop` (lines 327-360): periodic status
publish, then the programming block, then the switch poll.  `now` is
`millis()` and `switchReading` is `digitalRead(switchPin)`. -/
def loopStep (now : Int) (switchReading : Bool) (s : DS) : DS × List Ev :=
  let r1 := periodicStep now s
  let r2 := progStep now r1.1
  let r3 := switchStep now switchReading r2.1
  (r3.1, (r1.2 ++ r2.2) ++ r3.2)

/-- The path of `callback` that starts a programming cycle once
`findColor` has returned a valid code `k > 0` (lines 165-168):
`progVal = k; setProgramming(true);`. -/
def startProgramming (k : Int) (s : DS) : DS × List Ev :=
  let r := setProgramming true { s with progVal := k }
  (r.1, r.2.1)

/-- Example reachable mid-programming state used to instantiate theorems
with hypotheses: light on, programming color 3 pending, timers at 5. -/
def progState : DS :=
  { relayOn := true, switchState := false, programming := true, progVal := 3,
    currColor := -1, pinLow := true, lastMsg := 5, lastProgCheck := 5,
    lastSwitchCheck := 5 }

/-- Example idle state with the light already on, used to instantiate
theorems with hypotheses. -/
def idleOnState : DS :=
  { relayOn := true, switchState := false, programming := false, progVal := 0,
    currColor := -1, pinLow := true, lastMsg := 1, lastProgCheck := 0,
    lastSwitchCheck := 0 }



/-- `Char.toNat` is injective. -/
theorem char_toNat_injective {c d : Char} (h : c.toNat = d.toNat) : c = d := by
  have hc := Char.ofNat_toNat c
  rw [h] at hc
  exact hc.symm.trans (Char.ofNat_toNat d)

/-- Two strings with the same character list are equal. -/
theorem string_data_inj {a b : String} (h : a.data = b.data) : a = b := by
  cases a; cases b; exact congrArg String.mk h

/-- On NUL-free strings, a `strncmp` bounded past the end of the first
string is exact comparison. -/
theorem strncmp_eq_zero_iff :
    ∀ (n : Nat) (a b : List Char), a.length < n →
      (∀ c ∈ a, c ≠ '\x00') → (∀ c ∈ b, c ≠ '\x00') →
      (strncmp a b n = 0 ↔ a = b) := by
  intro n
  induction n with
  | zero =>
    intro a b h
    exact absurd h (Nat.not_lt_zero _)
  | succ n ih =>
    intro a b ha hna hnb
    match a, b with
    | [], [] => simp [strncmp]
    | [], d :: bs =>
      have hd : d.toNat ≠ 0 := by
        intro h0
        exact hnb d (by simp) (char_toNat_injective (by simpa using h0))
      simp only [strncmp]
      constructor
      · intro h; omega
      · intro h; exact absurd h (by simp)
    | c :: as, [] =>
      have hc : c.toNat ≠ 0 := by
        intro h0
        exact hna c (by simp) (char_toNat_injective (by simpa using h0))
      simp only [strncmp]
      constructor
      · intro h; omega
      · intro h; exact absurd h (by simp)
    | c :: as, d :: bs =>
      by_cases hcd : c = d
      · subst hcd
        have hred : strncmp (c :: as) (c :: bs) (n + 1) = strncmp as bs n := by
          simp [strncmp]
        rw [hred, ih as bs (by simpa using Nat.lt_of_succ_lt_succ ha)
          (fun x hx => hna x (List.mem_cons_of_mem _ hx))
          (fun x hx => hnb x (List.mem_cons_of_mem _ hx))]
        simp
      · have hne : (c.toNat : Int) - d.toNat ≠ 0 := by
          intro h0
          exact hcd (char_toNat_injective (by omega))
        simp only [strncmp, if_neg hcd]
        constructor
        · intro h; exact absurd h hne
        · intro h
          injection h with h1 h2
          exact absurd h1 hcd

/-- The `findColor` scan over a NUL-free table with a NUL-free query
shorter than 15 characters succeeds exactly on table membership. -/
theorem findColorAux_ne_neg_one_iff (str : String)
    (hlen : str.data.length < 15) (hnul : ∀ c ∈ str.data, c ≠ '\x00') :
    ∀ (ts : List String) (i : Int), 0 ≤ i →
      (∀ t ∈ ts, ∀ c ∈ t.data, c ≠ '\x00') →
      (findColorAux str.data ts i ≠ -1 ↔ str ∈ ts) := by
  intro ts
  induction ts with
  | nil => simp [findColorAux]
  | cons t ts ih =>
    intro i hi hnt
    by_cases h : strncmp str.data t.data 15 = 0
    · have hst : str = t :=
        string_data_inj
          ((strncmp_eq_zero_iff 15 _ _ hlen hnul (hnt t (by simp))).mp h)
      simp only [findColorAux, if_pos h]
      constructor
      · intro _; exact hst ▸ List.mem_cons_self t ts
      · intro _; omega
    · have hst : str ≠ t := by
        intro he
        exact h ((strncmp_eq_zero_iff 15 _ _ hlen hnul (hnt t (by simp))).mpr
          (by rw [he]))
      simp only [findColorAux, if_neg h]
      rw [ih (i + 1) (by omega)
        (fun x hx => hnt x (List.mem_cons_of_mem _ hx))]
      simp [List.mem_cons, hst]

/-- C5 (amended): color lookup compares at most the first 15 characters,
so it is exact and case-sensitive for every NUL-free input shorter than 15
characters (success exactly on table membership, where index 0 is the
`Invalid_Color` sentinel); longer inputs sharing their first 15 characters
with a table name also resolve.  On a failed resolution (result 0 or -1)
programming is not started and no event is emitted, but the pending pulse
count `progVal` is still overwritten with the failed lookup result. -/
theorem C5_amended :
    (∀ str : String, str.data.length < 15 → (∀ c ∈ str.data, c ≠ '\x00') →
      (findColor str ≠ -1 ↔ str ∈ colors_string)) ∧
    (∀ (str : String) (s : DS), findColor str ≤ 0 →
      callback ⟨none, some "on", some str⟩ s =
        ({ s with progVal := findColor str }, [])) := by
  constructor
  · intro str hlen hnul
    exact findColorAux_ne_neg_one_iff str hlen hnul colors_string 0 le_rfl
      (by decide)
  · intro str s h
    simp only [callback, powerCmd, progCmd]
    rw [if_pos (by decide : strncmp "on".data "on".data 2 = 0)]
    rw [if_neg (by omega : ¬ findColor str > 0)]
    rfl

theorem C5_amended_witness :
    (("Blue" : String).data.length < 15 ∧ findColor "Blue" ≠ -1) ∧
      (findColor "Zebra" ≤ 0 ∧
        callback ⟨none, some "on", some "Zebra"⟩ (initDS false) =
          ({ initDS false with progVal := findColor "Zebra" }, [])) :=
  ⟨⟨by decide,
    (C5_amended.1 "Blue" (by decide) (by decide)).mpr (by decide)⟩,
   ⟨by decide, C5_amended.2 "Zebra" (initDS false) (by decide)⟩⟩

/-- C4: for every color code in 1..14, resolving the table name of that
code through `findColor` returns the same code (name-to-pulse-count
round-trip). -/
theorem C4_roundtrip (k : Nat) (h1 : 1 ≤ k) (h2 : k ≤ 14) :
    findColor (colors_string.getD k "") = (k : Int) := by
  interval_cases k <;> decide

theorem C4_roundtrip_witness :
    1 ≤ 8 ∧ 8 ≤ 14 ∧ findColor (colors_string.getD 8 "") = (8 : Int) :=
  ⟨by decide, by decide, C4_roundtrip 8 (by decide) (by decide)⟩

/-- C9 (amended): when WiFi is connected the reported link quality is in
[0,100] and follows the piecewise RSSI mapping (at or below -100 dBm gives
0, at or above -50 dBm gives 100, linear 2*(dBm+100) in between); when
disconnected `getQuality` reports -1, which lies outside [0,100]. -/
theorem C9_amended (dBm : Int) :
    0 ≤ getQuality true dBm ∧ getQuality true dBm ≤ 100 ∧
    getQuality false dBm = -1 ∧
    (dBm ≤ -100 → getQuality true dBm = 0) ∧
    (-50 ≤ dBm → getQuality true dBm = 100) ∧
    (-100 < dBm → dBm < -50 → getQuality true dBm = 2 * (dBm + 100)) := by
  simp only [getQuality]
  norm_num
  split_ifs <;> omega

/-- C9: the claim quantifies over every connection state, but when WiFi is
disconnected `getQuality` returns -1, outside [0,100]. -/
theorem C9_counterexample :
    getQuality false (-75) = -1 ∧ ¬ (0 ≤ getQuality false (-75)) := by decide

theorem C9_amended_witness :
    getQuality true (-75) = 2 * ((-75 : Int) + 100) :=
  (C9_amended (-75)).2.2.2.2.2 (by decide) (by decide)

/-- C5: the claim states lookup is exact, but "Northern_LightsZ" is not a
table name yet resolves to code 3 (the comparison stops after 15
characters), and a programming command naming it does start programming. -/
theorem C5_counterexample :
    findColor "Northern_LightsZ" = 3 ∧ "Northern_LightsZ" ∉ colors_string ∧
      (callback ⟨none, some "on", some "Northern_LightsZ"⟩
        (initDS false)).1.programming = true := by decide

/-- C7: the claim states no status is published while `programming` is
true, but `setProgramming(true)` sets `programming` and then publishes, so
starting a programming cycle publishes a status in the programming state
(its payload reports programming on). -/
theorem C7_counterexample :
    Ev.publish ⟨true, true, "Unknown"⟩ ∈
        (callback ⟨none, some "on", some "Patriot_Blue"⟩ (initDS false)).2 ∧
      (callback ⟨none, some "on", some "Patriot_Blue"⟩
        (initDS false)).1.programming = true := by decide

/-- C1: the claim states no path other than the sequencer toggles the
`powerOn` flag while programming, but `callback` assigns `relayOn` before
`setRelay` performs its programming check, so a power command received
while programming flips the flag (the pin write alone is suppressed). -/
theorem C1_counterexample :
    ((callback ⟨some "off", none, none⟩
        { relayOn := true, switchState := false, programming := true,
          progVal := 3, currColor := -1, pinLow := true, lastMsg := 5,
          lastProgCheck := 5, lastSwitchCheck := 5 }).1.relayOn = false) ∧
      ((callback ⟨some "off", none, none⟩
        { relayOn := true, switchState := false, programming := true,
          progVal := 3, currColor := -1, pinLow := true, lastMsg := 5,
          lastProgCheck := 5, lastSwitchCheck := 5 }).1.programming = true) := by
  decide

/-- C8: the claim states a redundant power-on command publishes nothing,
but `setRelay` publishes unconditionally whenever it is not programming,
so power on while already on still publishes exactly one status. -/
theorem C8_counterexample :
    ((callback ⟨some "on", none, none⟩
        { relayOn := true, switchState := false, programming := false,
          progVal := 0, currColor := -1, pinLow := true, lastMsg := 1,
          lastProgCheck := 0, lastSwitchCheck := 0 }).2.filter
        isPublish).length = 1 := by decide

/-- C6: the claim states switch changes during programming are recorded
and not replayed, but the switch poll is skipped entirely while
programming (first conjunct: a changed reading leaves the stored
`switchState` untouched and produces no event), and once programming
completes the stale delta IS replayed as a relay toggle (second and third
conjuncts: the light was on, and the during-programming switch change
turns it off, writing the pin). -/
theorem C6_counterexample :
    (loopStep 5 true
        { relayOn := true, switchState := false, programming := true,
          progVal := 3, currColor := -1, pinLow := true, lastMsg := 5,
          lastProgCheck := 5, lastSwitchCheck := 5 } =
      ({ relayOn := true, switchState := false, programming := true,
          progVal := 3, currColor := -1, pinLow := true, lastMsg := 5,
          lastProgCheck := 5, lastSwitchCheck := 5 }, [])) ∧
    ((loopStep 300 true
        { relayOn := true, switchState := false, programming := true,
          progVal := 3, currColor := -1, pinLow := true, lastMsg := 5,
          lastProgCheck := 5, lastSwitchCheck := 5 }).1.relayOn = false) ∧
    (Ev.pinWrite false ∈
      (loopStep 300 true
        { relayOn := true, switchState := false, programming := true,
          progVal := 3, currColor := -1, pinLow := true, lastMsg := 5,
          lastProgCheck := 5, lastSwitchCheck := 5 }).2) := by decide

/-- One pulse of the train contributes the event list
off, 250ms, on, 250ms; the whole train is `n` copies of it. -/
theorem pulseTrain_events (n : Nat) (s : DS) :
    (pulseTrain n s).2 =
      (List.replicate n
        [Ev.pinWrite false, Ev.delayMs 250, Ev.pinWrite true,
         Ev.delayMs 250]).flatten := by
  induction n generalizing s with
  | zero => simp [pulseTrain]
  | succ n ih => simp [pulseTrain, toggleRelay, ih, List.replicate_succ]

/-- A pulse train started with the pin already LOW leaves the state
unchanged (every pulse ends driving the pin LOW again). -/
theorem pulseTrain_state (n : Nat) (s : DS) (h : s.pinLow = true) :
    (pulseTrain n s).1 = s := by
  induction n generalizing s with
  | zero => rfl
  | succ n ih =>
    have he : ({ s with pinLow := true } : DS) = s := by
      cases s; simp_all
    simp only [pulseTrain, toggleRelay]
    rw [he]
    exact ih s h

/-- The pulse train touches only the pin level, no other state field. -/
theorem pulseTrain_preserve (n : Nat) (s : DS) :
    (pulseTrain n s).1.relayOn = s.relayOn ∧
    (pulseTrain n s).1.switchState = s.switchState ∧
    (pulseTrain n s).1.programming = s.programming ∧
    (pulseTrain n s).1.progVal = s.progVal ∧
    (pulseTrain n s).1.currColor = s.currColor ∧
    (pulseTrain n s).1.lastMsg = s.lastMsg ∧
    (pulseTrain n s).1.lastProgCheck = s.lastProgCheck ∧
    (pulseTrain n s).1.lastSwitchCheck = s.lastSwitchCheck := by
  induction n generalizing s with
  | zero => simp [pulseTrain]
  | succ n ih =>
    simpa [pulseTrain, toggleRelay] using ih { s with pinLow := true }

/-- Every pulse-train event is a pin write or a delay, never a publish. -/
theorem pulseTrain_mem_nonpub (n : Nat) (s : DS) :
    ∀ e ∈ (pulseTrain n s).2, isPublish e = false := by
  induction n generalizing s with
  | zero => simp [pulseTrain]
  | succ n ih =>
    intro e he
    simp only [pulseTrain, toggleRelay, List.append_assoc, List.cons_append,
      List.nil_append, List.mem_cons] at he
    rcases he with h | h | h | h | h
    · subst h; rfl
    · subst h; rfl
    · subst h; rfl
    · subst h; rfl
    · exact ih _ e h

/-- The pulse train publishes nothing. -/
theorem pulseTrain_no_publish (n : Nat) (s : DS) :
    (pulseTrain n s).2.filter isPublish = [] := by
  induction n generalizing s with
  | zero => simp [pulseTrain]
  | succ n ih => simp [pulseTrain, toggleRelay, isPublish, ih]

/-- Filtering out publishes from a pulse train keeps every event. -/
theorem pulseTrain_all_nonpub (n : Nat) (s : DS) :
    (pulseTrain n s).2.filter (fun e => !(isPublish e)) =
      (pulseTrain n s).2 :=
  List.filter_eq_self.mpr (fun a ha => by
    simp [pulseTrain_mem_nonpub n s a ha])

/-- Explicit state and trace of the start-programming path from a
non-programming state: force the relay on (pin LOW plus a status
publish), wait 500ms, set `programming`, publish again. -/
theorem startProgramming_eq (k : Int) (s : DS) (h : s.programming = false) :
    startProgramming k s =
      ({ s with
          progVal := k, relayOn := true, pinLow := true,
          programming := true },
       [Ev.pinWrite true,
        Ev.publish (mkStatus { s with
          progVal := k, relayOn := true, pinLow := true }),
        Ev.delayMs 500,
        Ev.publish (mkStatus { s with
          progVal := k, relayOn := true, pinLow := true,
          programming := true })]) := by
  simp [startProgramming, setProgramming, setRelay, h]

/-- While programming, `setRelay` neither writes the pin nor publishes. -/
theorem setRelay_prog (s : DS) (hp : s.programming = true) :
    setRelay s = (s, []) := by
  simp [setRelay, hp]

/-- Requesting programming on while already programming is a no-op. -/
theorem setProgramming_true_noop (s : DS) (hp : s.programming = true) :
    setProgramming true s = (s, [], false) := by
  simp [setProgramming, hp]

/-- Cancelling programming clears the flag and publishes once; the payload
of that publish reports programming off. -/
theorem setProgramming_off (s : DS) (hp : s.programming = true) :
    setProgramming false s =
      ({ s with programming := false },
       [Ev.publish (mkStatus { s with programming := false })], true) := by
  simp [setProgramming, hp]

/-- The power section of `callback`, invoked while programming, emits no
event and leaves the programming flag set (the assignment to `relayOn`
may still happen, which is claim C1's counterexample). -/
theorem powerCmd_prog (pow : Option String) (s : DS)
    (hp : s.programming = true) :
    (powerCmd pow s).2 = [] ∧ (powerCmd pow s).1.programming = true := by
  cases pow with
  | none => exact ⟨rfl, hp⟩
  | some p =>
    simp only [powerCmd]
    split
    · rw [setRelay_prog _ (by simpa using hp)]
      exact ⟨rfl, by simpa using hp⟩
    · split
      · rw [setRelay_prog _ (by simpa using hp)]
        exact ⟨rfl, by simpa using hp⟩
      · exact ⟨rfl, hp⟩

/-- The programming section of `callback`, invoked while programming,
emits either nothing or exactly one publish whose payload reports
programming off (the cancel acknowledgement). -/
theorem progCmd_prog (p0 p1 : Option String) (s : DS)
    (hp : s.programming = true) :
    (progCmd p0 p1 s).2 = [] ∨
      ∃ st : Status, st.programming = false ∧
        (progCmd p0 p1 s).2 = [Ev.publish st] := by
  match p0, p1 with
  | none, _ => left; rfl
  | some pj, none => left; rfl
  | some pj, some cj =>
    simp only [progCmd]
    split
    · split
      · rw [setProgramming_true_noop _ (by simpa using hp)]
        left; rfl
      · left; rfl
    · split
      · rw [setProgramming_off _ hp]
        right
        exact ⟨mkStatus { s with programming := false }, rfl, rfl⟩
      · left; rfl

/-- A `callback` run started while programming emits either nothing or a
single programming-off publish. -/
theorem callback_prog_shape (m : Msg) (s : DS) (hp : s.programming = true) :
    (callback m s).2 = [] ∨
      ∃ st : Status, st.programming = false ∧
        (callback m s).2 = [Ev.publish st] := by
  have h1 := powerCmd_prog m.power s hp
  have h2 := progCmd_prog m.prog0 m.prog1 (powerCmd m.power s).1 h1.2
  simp only [callback, h1.1, List.nil_append]
  exact h2

/-- While programming with the programming timer not yet elapsed, one
whole `loop` iteration does nothing at all: no periodic publish, no
programming step, and no switch poll. -/
theorem loopStep_idle (now : Int) (r : Bool) (s : DS)
    (hp : s.programming = true) (h1 : s.lastProgCheck ≠ 0)
    (h2 : now - s.lastProgCheck ≤ timeBetweenProgCheck) :
    loopStep now r s = (s, []) := by
  have c1 : ¬(s.programming = false ∧
      (s.lastMsg = 0 ∨ now - s.lastMsg > timeBetweenMessages)) := by
    simp [hp]
  have c2 : ¬(s.programming = true ∧
      (s.lastProgCheck = 0 ∨ now - s.lastProgCheck > timeBetweenProgCheck)) := by
    rintro ⟨-, h | h⟩
    · exact h1 h
    · omega
  have c3 : ¬(s.programming = false ∧
      (s.lastSwitchCheck = 0 ∨
        now - s.lastSwitchCheck > timeBetweenSwitchCheck)) := by
    simp [hp]
  simp [loopStep, periodicStep, progStep, switchStep, c1, c2, c3]

/-- An event that is not a publish is not a programming-on publish. -/
theorem nonpub_pubDuringProg {e : Ev} (h : isPublish e = false) :
    pubDuringProg e = false := by
  cases e <;> simp_all [isPublish, pubDuringProg]

/-- The pulse train contains no programming-on publish. -/
theorem pulseTrain_pubOff (n : Nat) (s : DS) :
    (pulseTrain n s).2.filter pubDuringProg = [] := by
  rw [List.filter_eq_nil_iff]
  intro a ha
  simp [nonpub_pubDuringProg (pulseTrain_mem_nonpub n s a ha)]

/-- When not programming, every publish emitted by `setRelay` carries
programming off. -/
theorem setRelay_pub_off (s : DS) (hp : s.programming = false) :
    (setRelay s).2.filter pubDuringProg = [] := by
  cases hb : s.relayOn <;> simp [setRelay, hp, hb, pubDuringProg, mkStatus]

/-- When not programming, every publish emitted by `togglePower` carries
programming off. -/
theorem togglePower_pub_off (b : Bool) (s : DS) (hp : s.programming = false) :
    (togglePower b s).2.filter pubDuringProg = [] := by
  simp only [togglePower]
  rw [if_neg (by simp [hp])]
  exact setRelay_pub_off _ (by simp [hp])

/-- The programming block's completion publish carries programming off
(the flag is cleared before `publishStatus` runs). -/
theorem progStep_pub_off (now : Int) (s : DS) :
    (progStep now s).2.filter pubDuringProg = [] := by
  simp only [progStep]
  split
  · simp [List.filter_append, pulseTrain_pubOff, pubDuringProg, mkStatus]
  · rfl

/-- The periodic status block publishes only with programming off. -/
theorem periodicStep_pub_off (now : Int) (s : DS) :
    (periodicStep now s).2.filter pubDuringProg = [] := by
  simp only [periodicStep]
  split
  · next h => simp [pubDuringProg, mkStatus, h.1]
  · rfl

/-- The switch-poll block publishes only with programming off. -/
theorem switchStep_pub_off (now : Int) (r : Bool) (s : DS) :
    (switchStep now r s).2.filter pubDuringProg = [] := by
  simp only [switchStep]
  split
  · next h =>
    split
    · exact togglePower_pub_off _ _ (by simpa using h.1)
    · rfl
  · rfl

/-- No publish emitted anywhere in a `loop` iteration carries programming
on: the periodic publish and the switch-path publish require the flag to
be off, and the completion publish happens after the flag is cleared. -/
theorem loopStep_pub_off (now : Int) (r : Bool) (s : DS) :
    (loopStep now r s).2.filter pubDuringProg = [] := by
  simp only [loopStep, List.filter_append, List.append_eq_nil]
  exact ⟨⟨periodicStep_pub_off now s, progStep_pub_off now _⟩,
    switchStep_pub_off now r _⟩

/-- C1 (amended): while `programming` is true, the relay pin is written by
no path outside the programming block: a `callback` run emits no pin write
at all (`setRelay` suppresses them), and a `loop` iteration in which the
programming timer has not elapsed does nothing whatsoever (the switch poll
is excluded).  The `powerOn` flag, however, is not protected: a power
command received while programming still assigns `relayOn` (see the
counterexample), so only the pin-write half of the claim holds. -/
theorem C1_amended (m : Msg) (now : Int) (r : Bool) (s : DS)
    (hp : s.programming = true) (h1 : s.lastProgCheck ≠ 0)
    (h2 : now - s.lastProgCheck ≤ timeBetweenProgCheck) :
    (callback m s).2.filter isPinWrite = [] ∧ loopStep now r s = (s, []) := by
  refine ⟨?_, loopStep_idle now r s hp h1 h2⟩
  rcases callback_prog_shape m s hp with h | ⟨st, hst, h⟩ <;>
    simp [h, isPinWrite]

theorem C1_amended_witness :
    (callback ⟨some "off", none, none⟩ progState).2.filter isPinWrite = [] ∧
      loopStep 5 false progState = (progState, []) :=
  C1_amended ⟨some "off", none, none⟩ 5 false progState rfl (by decide)
    (by decide)

/-- C7 (amended): once programming is active, no publish at all carries a
programming-on payload: every publish of a `loop` iteration (periodic,
relay change, completion) reports programming off, and so does every
publish of a `callback` run started while programming.  The only
programming-on status in the system is the single transition announcement
emitted by `setProgramming(true)` at the moment programming starts (the
counterexample), which the claim's blanket "never" misses. -/
theorem C7_amended (now : Int) (r : Bool) (s : DS) (m : Msg)
    (hp : s.programming = true) :
    (loopStep now r s).2.filter pubDuringProg = [] ∧
      (callback m s).2.filter pubDuringProg = [] := by
  refine ⟨loopStep_pub_off now r s, ?_⟩
  rcases callback_prog_shape m s hp with h | ⟨st, hst, h⟩
  · simp [h]
  · simp [h, pubDuringProg, hst]

theorem C7_amended_witness :
    (loopStep 5 false progState).2.filter pubDuringProg = [] ∧
      (callback ⟨some "on", none, none⟩ progState).2.filter pubDuringProg
        = [] :=
  C7_amended 5 false progState ⟨some "on", none, none⟩ rfl

/-- C8 (amended): a power-on command received while not programming always
produces exactly the pin write and one status publish reporting power on,
whether or not the relay was already on: the state update is idempotent
for a redundant command, but the publish is not suppressed (the
counterexample shows the publish the claim says must not happen). -/
theorem C8_amended (s : DS) (hp : s.programming = false) :
    (callback ⟨some "on", none, none⟩ s).2 =
      [Ev.pinWrite true,
       Ev.publish (mkStatus { s with relayOn := true, pinLow := true })] ∧
    (mkStatus { s with relayOn := true, pinLow := true }).power = true := by
  constructor
  · simp only [callback, powerCmd, progCmd]
    rw [if_pos (by decide : strncmp "on".data "on".data 2 = 0)]
    simp [setRelay, hp]
  · rfl

theorem C8_amended_witness :
    (callback ⟨some "on", none, none⟩ idleOnState).2 =
      [Ev.pinWrite true,
       Ev.publish
        (mkStatus { idleOnState with relayOn := true, pinLow := true })] ∧
      (mkStatus { idleOnState with relayOn := true, pinLow := true }).power
        = true :=
  C8_amended idleOnState rfl

/-- State equation of a fired programming block: all fields explicit
except the pin level, which the pulse train determines. -/
theorem progStep_fired_fst (now : Int) (s : DS) (hp : s.programming = true)
    (hg : s.lastProgCheck = 0 ∨ now - s.lastProgCheck > timeBetweenProgCheck) :
    (progStep now s).1 =
      { s with
        currColor := s.progVal, progVal := 0, programming := false,
        lastProgCheck := now,
        pinLow :=
          (pulseTrain s.progVal.toNat
            { s with lastProgCheck := now }).1.pinLow } := by
  simp only [progStep]
  rw [if_pos ⟨hp, hg⟩]
  obtain ⟨p1, p2, p3, p4, p5, p6, p7, p8⟩ :=
    pulseTrain_preserve s.progVal.toNat { s with lastProgCheck := now }
  apply DS.ext <;> simp [p1, p2, p3, p4, p5, p6, p7, p8]

/-- Trace equation of a fired programming block: the pulse train followed
by the single completion publish, whose payload reports the old power
flag, programming off, and the just-programmed color. -/
theorem progStep_fired_snd (now : Int) (s : DS) (hp : s.programming = true)
    (hg : s.lastProgCheck = 0 ∨ now - s.lastProgCheck > timeBetweenProgCheck) :
    (progStep now s).2 =
      (pulseTrain s.progVal.toNat { s with lastProgCheck := now }).2 ++
        [Ev.publish
          { power := s.relayOn, programming := false,
            color :=
              if s.progVal < 1 then "Unknown"
              else colors_string.getD s.progVal.toNat "Unknown" }] := by
  simp only [progStep]
  rw [if_pos ⟨hp, hg⟩]
  obtain ⟨p1, p2, p3, p4, p5, p6, p7, p8⟩ :=
    pulseTrain_preserve s.progVal.toNat { s with lastProgCheck := now }
  simp [mkStatus, p1, p4]

/-- C6 (amended): while programming is active the switch is not polled at
all: an iteration whose programming timer has not elapsed leaves the state
untouched and emits nothing, so a changed switch reading is neither
recorded nor acted on.  Consequently the delta is replayed after
completion: in the iteration whose programming timer has elapsed, the
pulse train finishes, and then the same iteration's switch poll compares
the reading against the stale pre-programming `switchState` and toggles
the relay, writing the pin. -/
theorem C6_amended (now now2 : Int) (r : Bool) (s : DS)
    (hp : s.programming = true) (h1 : s.lastProgCheck ≠ 0)
    (h2 : now - s.lastProgCheck ≤ timeBetweenProgCheck)
    (hg : now2 - s.lastProgCheck > timeBetweenProgCheck)
    (hsw : now2 - s.lastSwitchCheck > timeBetweenSwitchCheck)
    (hr : r ≠ s.switchState) :
    loopStep now r s = (s, []) ∧
    (loopStep now2 r s).1.switchState = r ∧
    (loopStep now2 r s).1.relayOn = !s.relayOn ∧
    (loopStep now2 r s).1.programming = false ∧
    Ev.pinWrite (!s.relayOn) ∈ (loopStep now2 r s).2 := by
  refine ⟨loopStep_idle now r s hp h1 h2, ?_⟩
  have hf := progStep_fired_fst now2 s hp (Or.inr hg)
  have hs := progStep_fired_snd now2 s hp (Or.inr hg)
  have hper : periodicStep now2 s = (s, []) := by simp [periodicStep, hp]
  cases hb : s.relayOn <;>
    simp [loopStep, hper, hf, hs, switchStep, togglePower, setRelay,
      mkStatus, hsw, hr, hb]

theorem C6_amended_witness :
    loopStep 5 true progState = (progState, []) ∧
      (loopStep 300 true progState).1.switchState = true ∧
      (loopStep 300 true progState).1.relayOn = !progState.relayOn ∧
      (loopStep 300 true progState).1.programming = false ∧
      Ev.pinWrite (!progState.relayOn) ∈ (loopStep 300 true progState).2 :=
  C6_amended 5 300 true progState rfl (by decide) (by decide) (by decide)
    (by decide) (by decide)

/-- C2: starting programming with a valid code k (1..14) and letting the
programming block of `loop` run to completion yields `currColor = k`,
`programming = false`, `progVal = 0`, and exactly one status publish from
the completion block, emitted as its final action, for every prior state
with `programming = false` (any prior `currColor`, the unknown boot value
included). -/
theorem C2_prog_completion (k : Nat) (s : DS) (now : Int)
    (h1 : 1 ≤ k) (h2 : k ≤ 14) (hp : s.programming = false)
    (hg : s.lastProgCheck = 0 ∨ now - s.lastProgCheck > timeBetweenProgCheck) :
    ((progStep now (startProgramming (k : Int) s).1).1.currColor = (k : Int)) ∧
    ((progStep now (startProgramming (k : Int) s).1).1.programming = false) ∧
    ((progStep now (startProgramming (k : Int) s).1).1.progVal = 0) ∧
    ((progStep now (startProgramming (k : Int) s).1).2.filter isPublish =
      [Ev.publish (mkStatus (progStep now (startProgramming (k : Int) s).1).1)]) ∧
    ((progStep now (startProgramming (k : Int) s).1).2.getLast? =
      some (Ev.publish (mkStatus (progStep now (startProgramming (k : Int) s).1).1))) := by
  rw [startProgramming_eq (k : Int) s hp]
  simp only [progStep]
  rw [if_pos ⟨by trivial, by simpa using hg⟩]
  rw [pulseTrain_state _ _ rfl]
  simp [pulseTrain_no_publish, isPublish, List.filter_append,
    List.getLast?_concat]

theorem C2_prog_completion_witness :
    ((progStep 0 (startProgramming (8 : Int) (initDS false)).1).1.currColor =
        (8 : Int)) ∧
      ((progStep 0 (startProgramming (8 : Int) (initDS false)).1).1.programming
        = false) ∧
      ((progStep 0 (startProgramming (8 : Int) (initDS false)).1).1.progVal
        = 0) :=
  have h := C2_prog_completion 8 (initDS false) 0 (by decide) (by decide) rfl
    (Or.inl rfl)
  ⟨h.1, h.2.1, h.2.2.1⟩

/-- C3: the relay writes and delays of a full programming run for code k
are exactly: pin on, 500ms settle delay, then k pulses each consisting of
pin off, 250ms, pin on, 250ms, with no other relay write interleaved. -/
theorem C3_pulse_shape (k : Nat) (s : DS) (now : Int)
    (h1 : 1 ≤ k) (h2 : k ≤ 14) (hp : s.programming = false)
    (hg : s.lastProgCheck = 0 ∨ now - s.lastProgCheck > timeBetweenProgCheck) :
    ((startProgramming (k : Int) s).2 ++
        (progStep now (startProgramming (k : Int) s).1).2).filter
      (fun e => !(isPublish e)) =
      Ev.pinWrite true :: Ev.delayMs 500 ::
        (List.replicate k
          [Ev.pinWrite false, Ev.delayMs 250, Ev.pinWrite true,
           Ev.delayMs 250]).flatten := by
  rw [startProgramming_eq (k : Int) s hp]
  simp only [progStep]
  rw [if_pos ⟨by trivial, by simpa using hg⟩]
  simp [List.filter_append, pulseTrain_all_nonpub, isPublish,
    pulseTrain_events, Int.toNat_natCast]

theorem C3_pulse_shape_witness :
    ((startProgramming (2 : Int) (initDS false)).2 ++
        (progStep 0 (startProgramming (2 : Int) (initDS false)).1).2).filter
      (fun e => !(isPublish e)) =
      Ev.pinWrite true :: Ev.delayMs 500 ::
        (List.replicate 2
          [Ev.pinWrite false, Ev.delayMs 250, Ev.pinWrite true,
           Ev.delayMs 250]).flatten :=
  C3_pulse_shape 2 (initDS false) 0 (by decide) (by decide) rfl (Or.inl rfl)

/-- C10: every programming cycle forces the light on and leaves it on:
starting programming sets `relayOn` and drives the pin LOW as its very
first action (before the settle delay), and at completion of the pulse
train both the pin and `relayOn` are still on, whatever the power state
was before programming began. -/
theorem C10_ends_on (k : Nat) (s : DS) (now : Int)
    (h1 : 1 ≤ k) (h2 : k ≤ 14) (hp : s.programming = false)
    (hg : s.lastProgCheck = 0 ∨ now - s.lastProgCheck > timeBetweenProgCheck) :
    ((startProgramming (k : Int) s).1.relayOn = true) ∧
    ((startProgramming (k : Int) s).1.pinLow = true) ∧
    ((startProgramming (k : Int) s).2.head? = some (Ev.pinWrite true)) ∧
    ((progStep now (startProgramming (k : Int) s).1).1.pinLow = true) ∧
    ((progStep now (startProgramming (k : Int) s).1).1.relayOn = true) := by
  rw [startProgramming_eq (k : Int) s hp]
  simp only [progStep]
  rw [if_pos ⟨by trivial, by simpa using hg⟩]
  rw [pulseTrain_state _ _ rfl]
  simp

theorem C10_ends_on_witness :
    ((startProgramming (3 : Int) (initDS true)).1.relayOn = true) ∧
      ((progStep 7 (startProgramming (3 : Int) (initDS true)).1).1.pinLow
        = true) :=
  have h := C10_ends_on 3 (initDS true) 7 (by decide) (by decide) rfl
    (Or.inl rfl)
  ⟨h.1, h.2.2.2.1⟩

end PoolLight
